import Mathlib

/-!
Verification development for the SiteFlow dashboard frontend and backup
scripts.  Each definition below is a shallow embedding of a function of the
repository (TypeScript components, the WebSocket client, or the backup shell
scripts); theorems settle the specification claims against these embeddings.
-/

namespace SiteFlow

/-! ## String utilities

JavaScript string operations used by the embedded code:
`String.prototype.includes` (substring test), `split('/').pop()`
(last path segment), and the character-class tests of the validation
regexes. Strings are modelled on their character lists.
-/

/-- Substring test: `containsSub pat l` is true exactly when `pat` occurs
contiguously inside `l` (JS `l.includes(pat)`). -/
def containsSub (pat : List Char) : List Char → Bool
  | [] => pat.isEmpty
  | a :: t => pat.isPrefixOf (a :: t) || containsSub pat t

/-- JS `s.includes(pat)` on strings. -/
def strContains (s pat : String) : Bool :=
  containsSub pat.data s.data

theorem containsSub_iff (pat l : List Char) :
    containsSub pat l = true ↔ pat <:+: l := by
  induction l with
  | nil =>
    simp [containsSub, List.isEmpty_iff, List.infix_nil]
  | cons a t ih =>
    simp only [containsSub, Bool.or_eq_true, ih, List.infix_cons_iff,
      List.isPrefixOf_iff_prefix]

theorem containsSub_trans {p m l : List Char}
    (h₁ : containsSub p m = true) (h₂ : containsSub m l = true) :
    containsSub p l = true := by
  rw [containsSub_iff] at *
  exact h₁.trans h₂

theorem containsSub_of_suffix {p m l : List Char}
    (h₁ : containsSub p m = true) (h₂ : m <:+ l) :
    containsSub p l = true := by
  rw [containsSub_iff] at *
  exact h₁.trans h₂.isInfix

/-- Last `/`-separated segment of a character list: the value of the JS
expression `s.split('/').pop()`. -/
def lastSeg : List Char → List Char
  | [] => []
  | a :: t => if '/' ∈ t then lastSeg t else if a = '/' then t else a :: t

theorem lastSeg_suffix (l : List Char) : lastSeg l <:+ l := by
  induction l with
  | nil => exact List.suffix_refl []
  | cons a t ih =>
    by_cases h : '/' ∈ t
    · simp only [lastSeg, h, if_true]
      exact ih.trans (List.suffix_cons a t)
    · by_cases ha : a = '/'
      · simp [lastSeg, h, ha, List.suffix_cons a t]
      · simp [lastSeg, h, ha]

/-- JS `s.split('/').pop() || s`: the last path segment, falling back to
the whole string when that segment is empty. -/
def jsBasename (s : String) : String :=
  if lastSeg s.data = [] then s else ⟨lastSeg s.data⟩

theorem jsBasename_suffix (s : String) : (jsBasename s).data <:+ s.data := by
  unfold jsBasename
  by_cases h : lastSeg s.data = []
  · simp [h]
  · simpa [h] using lastSeg_suffix s.data

/-- Lowercase-alphanumeric character class `[a-z0-9]` of the validation
regexes. -/
def isAlnumLower (c : Char) : Bool :=
  ('a' ≤ c && c ≤ 'z') || ('0' ≤ c && c ≤ '9')

/-! ## Data model (frontend `api/types`)

Only the fields the verified functions read are carried. -/

/-- Live container as the UI sees it (`ContainerStatus`): `status` is the
Docker status text and may be absent (the code guards with `c.status?.`). -/
structure Container where
  name : String
  status : Option String
  deriving Repr, DecidableEq

/-- Site record (`Site`): `status` is the backend-derived status string,
`caddy_domains` the proxied domains. -/
structure Site where
  name : String
  status : String
  containers : List Container
  caddy_domains : List String
  deriving Repr, DecidableEq

/-- Site status enumeration of the spec:
`status ∈ {running, stopped, degraded, unknown}`. -/
inductive SiteStatus where
  | running | stopped | degraded | unknown
  deriving Repr, DecidableEq

/-- Checklist status of `StatusChecklist` (`CheckStatus`). -/
inductive CheckStatus where
  | ok | warning | error
  deriving Repr, DecidableEq

/-! ## C1: container health and site status -/

/-- The UI's healthiness test: `c.status?.includes('Up')`
(`SiteCard`/`StatusChecklist`); a missing status text counts unhealthy. -/
def containerHealthy (c : Container) : Bool :=
  match c.status with
  | some s => strContains s "Up"
  | none => false

/-- Modelled from the spec: the backend site-status derivation is not part
of the frontend sources; per §3 a container is healthy exactly when its
`status_text` begins with "Up". -/
def specHealthy (c : Container) : Bool :=
  match c.status with
  | some s => "Up".data.isPrefixOf s.data
  | none => false

/-- Modelled from the spec: §3 invariant (i) — all healthy ⇒ running; none
healthy ⇒ stopped; mixed ⇒ degraded; empty container list ⇒ unknown —
parameterised by the healthiness test. -/
def deriveStatus (healthy : Container → Bool) (cs : List Container) : SiteStatus :=
  if cs.isEmpty then .unknown
  else if cs.all healthy then .running
  else if cs.all (fun c => !healthy c) then .stopped
  else .degraded

/-- Function `getContainerCheck` from `StatusChecklist`: classify the site's
containers for the health checklist. -/
def getContainerCheck (site : Site) : CheckStatus :=
  let running := (site.containers.filter containerHealthy).length
  let total := site.containers.length
  if total = 0 then .error
  else if running = total then .ok
  else if running > 0 then .warning
  else .error

/-- Expression `runningCount` from `SiteCard`:
`site.containers.filter(c => c.status?.includes('Up')).length`. -/
def runningCount (site : Site) : Nat :=
  (site.containers.filter containerHealthy).length

/-- The claim's mapping of derived site status onto the checklist:
all healthy ↦ ok, mixed ↦ warning, none-or-empty ↦ error. -/
def checkOfStatus : SiteStatus → CheckStatus
  | .running => .ok
  | .degraded => .warning
  | .stopped => .error
  | .unknown => .error

/-- A site whose single container's status text contains "Up" without
beginning with it. -/
def upSubstringSite : Site :=
  { name := "demo"
    status := "running"
    containers := [{ name := "demo-web", status := some "Restarting, was Up" }]
    caddy_domains := [] }

/-- C1 counterexample: on a container whose status text contains "Up"
without beginning with it, the UI checklist reports `ok` although the
spec's prefix-based derivation yields `stopped` (hence `error` under the
claim's mapping) — the asserted agreement fails. -/
theorem c1_prefix_healthy_counterexample :
    deriveStatus specHealthy upSubstringSite.containers = .stopped ∧
    checkOfStatus (deriveStatus specHealthy upSubstringSite.containers) = .error ∧
    getContainerCheck upSubstringSite = .ok ∧
    runningCount upSubstringSite = 1 ∧
    upSubstringSite.containers.countP specHealthy = 0 := by
  refine ⟨?_, ?_, ?_, ?_, ?_⟩ <;> decide

/-- C1 (amended): for every site, the UI's container classification and
running count agree with the pure status derivation of §3 once a container
counts as healthy exactly when its status text contains "Up" (a missing
status text counting unhealthy): all ↦ ok, mixed ↦ warning,
none-or-empty ↦ error. -/
theorem c1_container_classification_agrees (site : Site) :
    getContainerCheck site
      = checkOfStatus (deriveStatus containerHealthy site.containers) ∧
    runningCount site = site.containers.countP containerHealthy := by
  refine ⟨?_, (List.countP_eq_length_filter _ _).symm⟩
  show (if site.containers.length = 0 then CheckStatus.error
      else if (site.containers.filter containerHealthy).length
          = site.containers.length then .ok
      else if (site.containers.filter containerHealthy).length > 0 then .warning
      else .error)
    = checkOfStatus (deriveStatus containerHealthy site.containers)
  generalize site.containers = cs
  by_cases h0 : cs.length = 0
  · have he : cs.isEmpty = true := by cases cs <;> simp_all
    rw [if_pos h0]
    unfold deriveStatus
    rw [if_pos he]
    rfl
  · have he : ¬ cs.isEmpty = true := by cases cs <;> simp_all
    rw [if_neg h0]
    unfold deriveStatus
    rw [if_neg he]
    cases hA : cs.all containerHealthy with
    | true =>
      have hflen : (cs.filter containerHealthy).length = cs.length :=
        List.filter_length_eq_length.mpr (List.all_eq_true.mp hA)
      rw [if_pos hflen]
      rfl
    | false =>
      have hnall : ¬ ∀ a ∈ cs, containerHealthy a = true :=
        fun hcon => by simp [List.all_eq_true.mpr hcon] at hA
      have hflen : (cs.filter containerHealthy).length ≠ cs.length :=
        fun hcontra => hnall (List.filter_length_eq_length.mp hcontra)
      rw [if_neg hflen]
      cases hN : cs.all (fun c => !containerHealthy c) with
      | true =>
        have hnil : cs.filter containerHealthy = [] := by
          refine List.filter_eq_nil_iff.mpr (fun a ha => ?_)
          have := List.all_eq_true.mp hN a ha
          simpa using this
        rw [if_neg (by simp [hnil])]
        rfl
      | false =>
        obtain ⟨a, ha, hpa⟩ : ∃ a ∈ cs, containerHealthy a = true := by
          have := List.all_eq_false.mp hN
          simpa using this
        have hpos : (cs.filter containerHealthy).length > 0 := by
          refine List.length_pos.mpr (fun hnil => ?_)
          have := List.filter_eq_nil_iff.mp hnil a ha
          simp [hpa] at this
        rw [if_pos hpos]
        rfl

/-! ## Health data model (`api/types/health`) and C6/C9: uptime bars -/

/-- Record `HeartbeatEntry`: `{status: number; time: string; ping: number | null}`.
Heartbeat status codes are small integers (the padding bar uses `-1`). -/
structure HeartbeatEntry where
  status : Int
  time : String
  ping : Option Rat
  deriving Repr, DecidableEq

/-- Record `MonitorStatus`: `{up, ping, uptime, heartbeats[]}`. -/
structure MonitorStatus where
  up : Bool
  ping : Option Rat
  uptime : Rat
  heartbeats : List HeartbeatEntry
  deriving Repr, DecidableEq

/-- The padding bar `{ status: -1, time: '', ping: null }` of `UptimeLine`. -/
def unknownBar : HeartbeatEntry :=
  { status := -1, time := "", ping := none }

/-- CSS class family picked per bar. -/
inductive BarClass where
  | up | down | pending | unknown
  deriving Repr, DecidableEq

/-- Function `getBarClass` from `UptimeLine`: switch on the heartbeat status code. -/
def getBarClass (status : Int) : BarClass :=
  if status = 1 then .up
  else if status = 0 then .down
  else if status = 2 then .pending
  else .unknown

/-- JS `heartbeats.slice(-30)`: the last (at most) 30 entries. -/
def takeLast (n : Nat) (l : List α) : List α :=
  l.drop (l.length - n)

/-- The bar list `UptimeLine` renders: no monitor ⇒ 30 unknown bars;
otherwise `heartbeats.slice(-30)` (or 30 unknown bars when empty),
left-padded with unknown bars up to 30 (the `while ... unshift` loop). -/
def displayBars (monitor : Option MonitorStatus) : List HeartbeatEntry :=
  match monitor with
  | none => List.replicate 30 unknownBar
  | some m =>
    let base :=
      if m.heartbeats.length > 0 then takeLast 30 m.heartbeats
      else List.replicate 30 unknownBar
    List.replicate (30 - base.length) unknownBar ++ base

/-- C9's description of the bar line, stated from the claim's words: with
`n ≥ 1` heartbeats, the last `min 30 n` of them left-padded with unknown
bars to 30; otherwise 30 unknown bars. -/
def claimLineBars (monitor : Option MonitorStatus) : List HeartbeatEntry :=
  match monitor with
  | none => List.replicate 30 unknownBar
  | some m =>
    if m.heartbeats.isEmpty then List.replicate 30 unknownBar
    else
      List.replicate (30 - min 30 m.heartbeats.length) unknownBar
        ++ takeLast 30 m.heartbeats

theorem takeLast_length (n : Nat) (l : List α) :
    (takeLast n l).length = min n l.length := by
  simp only [takeLast, List.length_drop]
  omega

/-- C6: the uptime bar class reflects the heartbeat status value as
0 = down, 1 = up, 2 = pending, and any other value as unknown. -/
theorem c6_bar_class_of_status :
    getBarClass 0 = .down ∧ getBarClass 1 = .up ∧ getBarClass 2 = .pending ∧
    ∀ s : Int, s ≠ 0 → s ≠ 1 → s ≠ 2 → getBarClass s = .unknown := by
  refine ⟨rfl, rfl, rfl, fun s h0 h1 h2 => ?_⟩
  simp [getBarClass, h0, h1, h2]

/-- C6 witness: the padding value `-1` renders as unknown. -/
theorem c6_bar_class_of_status_witness : getBarClass (-1) = .unknown :=
  c6_bar_class_of_status.2.2.2 (-1) (by decide) (by decide) (by decide)

/-- C9: the uptime line always renders exactly 30 bars, and they are the
last `min 30 n` heartbeats left-padded with unknown bars (30 unknown bars
when the monitor is absent or has no heartbeats). -/
theorem c9_uptime_line_bars (monitor : Option MonitorStatus) :
    (displayBars monitor).length = 30 ∧
    displayBars monitor = claimLineBars monitor := by
  cases monitor with
  | none => simp [displayBars, claimLineBars]
  | some m =>
    cases hhb : m.heartbeats with
    | nil => simp [displayBars, claimLineBars, hhb]
    | cons h t =>
      have hlen : (takeLast 30 m.heartbeats).length = min 30 m.heartbeats.length :=
        takeLast_length 30 m.heartbeats
      have hle : (takeLast 30 m.heartbeats).length ≤ 30 := by
        rw [hlen]; omega
      constructor
      · simp only [displayBars, hhb, List.length_cons, Nat.succ_le_iff,
          gt_iff_lt, Nat.succ_pos, if_pos, List.length_append,
          List.length_replicate]
        rw [← hhb, hlen]
        omega
      · simp only [displayBars, claimLineBars, hhb, List.isEmpty_cons,
          List.length_cons, gt_iff_lt, Nat.succ_pos, if_pos,
          Bool.false_eq_true, if_false]
        rw [← hhb, hlen, hhb, List.length_cons]

/-! ## WebSocket client (`api/websocket.ts`) — C4, C10 -/

/-- JSON primitive values occurring in the client payload objects (all
fields of the outbound messages are strings). -/
inductive JsonStr where
  | str (s : String)
  deriving Repr, DecidableEq

/-- The four public send operations of `WebSocketClient`; these are the
only call sites of `send` in the client. -/
inductive ClientSend where
  | subscribe (topic : String)
  | unsubscribe (topic : String)
  | startAction (container : String) (action : String)
  | ping
  deriving Repr, DecidableEq

/-- The object literal each send operation passes to `send` (field order as
written in the source). -/
def messageOf : ClientSend → List (String × JsonStr)
  | .subscribe topic => [("type", .str "subscribe"), ("topic", .str topic)]
  | .unsubscribe topic => [("type", .str "unsubscribe"), ("topic", .str topic)]
  | .startAction container action =>
      [("type", .str "action.start"), ("container", .str container),
       ("action", .str action)]
  | .ping => [("type", .str "ping")]

/-- C4: every message the WebSocket client sends is one of exactly four
shapes — `subscribe{topic}`, `unsubscribe{topic}`,
`action.start{container, action}`, or `ping` — with the given `type` field
and exactly those payload fields. -/
theorem c4_client_message_shapes (c : ClientSend) :
    (∃ t, messageOf c = [("type", .str "subscribe"), ("topic", .str t)]) ∨
    (∃ t, messageOf c = [("type", .str "unsubscribe"), ("topic", .str t)]) ∨
    (∃ cn a, messageOf c
      = [("type", .str "action.start"), ("container", .str cn),
         ("action", .str a)]) ∨
    messageOf c = [("type", JsonStr.str "ping")] := by
  cases c with
  | subscribe topic => exact Or.inl ⟨topic, rfl⟩
  | unsubscribe topic => exact Or.inr (Or.inl ⟨topic, rfl⟩)
  | startAction container action =>
      exact Or.inr (Or.inr (Or.inl ⟨container, action, rfl⟩))
  | ping => exact Or.inr (Or.inr (Or.inr rfl))

/-- Constant `maxReconnectAttempts` of `WebSocketClient`. -/
def maxReconnectAttempts : Nat := 10

/-- Constant `reconnectDelay` of `WebSocketClient` (milliseconds). -/
def reconnectDelay : Nat := 1000

/-- Method `scheduleReconnect`: given the current `reconnectAttempts` counter,
either do nothing (cap reached) or schedule one reconnect with delay
`reconnectDelay * 2 ^ reconnectAttempts` and bump the counter. Returns the
new counter and the scheduled delay, if any. -/
def scheduleReconnect (attempts : Nat) : Nat × Option Nat :=
  if attempts ≥ maxReconnectAttempts then (attempts, none)
  else (attempts + 1, some (reconnectDelay * 2 ^ attempts))

/-- Connection lifecycle events the client reacts to: `onopen` resets the
attempt counter; `onclose` runs `scheduleReconnect`. -/
inductive WsEvent where
  | opened
  | closed
  deriving Repr, DecidableEq

/-- One event step of the reconnect state machine. -/
def wsStep (attempts : Nat) : WsEvent → Nat × Option Nat
  | .opened => (0, none)
  | .closed => scheduleReconnect attempts

/-- Run a sequence of lifecycle events, collecting every scheduled
reconnect delay in order. -/
def wsRun (attempts : Nat) : List WsEvent → Nat × List Nat
  | [] => (attempts, [])
  | e :: rest =>
    let (a', d) := wsStep attempts e
    let (af, ds) := wsRun a' rest
    (af, d.toList ++ ds)

theorem wsRun_closed_replicate (attempts k : Nat) (h : attempts ≤ 10) :
    (wsRun attempts (List.replicate k .closed)).2
      = (List.range' attempts (min k (10 - attempts))).map
          (fun i => 1000 * 2 ^ i) := by
  induction k generalizing attempts with
  | zero => simp [wsRun]
  | succ k ih =>
    by_cases hcap : attempts ≥ maxReconnectAttempts
    · have h10 : attempts = 10 := by
        simp [maxReconnectAttempts] at hcap
        omega
      simp only [List.replicate_succ, wsRun, wsStep, scheduleReconnect,
        if_pos hcap]
      rw [ih attempts h]
      simp [h10]
    · have hlt : attempts < 10 := by
        simp [maxReconnectAttempts] at hcap
        omega
      simp only [List.replicate_succ, wsRun, wsStep, scheduleReconnect,
        if_neg hcap]
      rw [ih (attempts + 1) (by omega)]
      have hmin : min (k + 1) (10 - attempts) = (min k (10 - (attempts + 1))) + 1 := by
        omega
      rw [hmin, List.range'_succ]
      simp [reconnectDelay]

/-- C10: (a) below the cap, a close schedules exactly one reconnect with
delay `1000 * 2^k` ms, `k` the failed attempts so far, bumping the counter;
(b) at the cap of 10 nothing is scheduled; (c) a successful open resets the
counter to 0; (d) a burst of `k` consecutive closes from a fresh client
schedules exactly `min k 10` reconnects with delays `1000 * 2^0 … 1000 *
2^(min k 10 - 1)` — never more than 10 consecutive attempts. -/
theorem c10_reconnect_backoff_cap :
    (∀ k, k < 10 → scheduleReconnect k = (k + 1, some (1000 * 2 ^ k))) ∧
    (∀ k, 10 ≤ k → scheduleReconnect k = (k, none)) ∧
    (∀ k, wsStep k .opened = (0, none)) ∧
    (∀ k, (wsRun 0 (List.replicate k .closed)).2
        = (List.range (min k 10)).map (fun i => 1000 * 2 ^ i)) := by
  refine ⟨fun k hk => ?_, fun k hk => ?_, fun k => rfl, fun k => ?_⟩
  · simp [scheduleReconnect, maxReconnectAttempts, reconnectDelay, Nat.not_le.mpr hk]
  · simp [scheduleReconnect, maxReconnectAttempts, hk]
  · rw [wsRun_closed_replicate 0 k (by omega)]
    simp [List.range_eq_range']

/-- C10 witness: from a fresh client, 12 consecutive closes schedule
exactly the ten delays 1000·2⁰ … 1000·2⁹ and no more; attempt 3 backs off
1000·2³ ms; the cap and the reset behave as stated. -/
theorem c10_reconnect_backoff_cap_witness :
    scheduleReconnect 3 = (4, some 8000) ∧
    scheduleReconnect 10 = (10, none) ∧
    wsStep 7 .opened = (0, none) ∧
    (wsRun 0 (List.replicate 12 .closed)).2
      = [1000, 2000, 4000, 8000, 16000, 32000, 64000, 128000, 256000, 512000] := by
  refine ⟨?_, ?_, ?_, ?_⟩
  · have := c10_reconnect_backoff_cap.1 3 (by decide)
    simpa using this
  · exact c10_reconnect_backoff_cap.2.1 10 (by decide)
  · exact c10_reconnect_backoff_cap.2.2.1 7
  · have := c10_reconnect_backoff_cap.2.2.2 12
    simpa using this

/-! ## `WebSocketProvider` status handler (`api/WebSocketContext.tsx`) — C5 -/

/-- The query keys `WebSocketProvider` invalidates when the status handler
observes `connected && !previousConnectionRef.current`; empty otherwise. -/
def statusInvalidations (connected prev : Bool) : List String :=
  if connected && !prev then ["sites", "graph"] else []

/-- Run the status handler over a sequence of connection-status events,
threading `previousConnectionRef` (initially `false` in the provider) and
recording the queries invalidated at each event. -/
def runStatusHandler (prev : Bool) : List Bool → List (List String)
  | [] => []
  | c :: rest => statusInvalidations c prev :: runStatusHandler c rest

theorem length_runStatusHandler (prev : Bool) (events : List Bool) :
    (runStatusHandler prev events).length = events.length := by
  induction events generalizing prev with
  | nil => rfl
  | cons c rest ih => simp [runStatusHandler, ih]

/-- C5: the provider invalidates its cached `sites` and `graph` queries
exactly at disconnected→connected transitions (current status `true`,
previous status `false`), and invalidates nothing at any other status
change. -/
theorem c5_reconnect_invalidates (prev : Bool) (events : List Bool)
    (i : Nat) (h : i < events.length) :
    (runStatusHandler prev events).get
        ⟨i, by rw [length_runStatusHandler]; exact h⟩
      = if events.get ⟨i, h⟩ = true ∧
          (prev :: events).get ⟨i, Nat.lt_succ_of_lt h⟩ = false
        then ["sites", "graph"]
        else [] := by
  induction events generalizing prev i with
  | nil => exact absurd h (Nat.not_lt_zero i)
  | cons c rest ih =>
    cases i with
    | zero =>
      show statusInvalidations c prev = _
      unfold statusInvalidations
      cases c <;> cases prev <;> simp
    | succ j =>
      have hj : j < rest.length := Nat.lt_of_succ_lt_succ h
      simpa using ih c j hj

/-- C5 witness: with event trace `[true, true, false, true]` from a fresh
provider, the first event (initial connect) and the fourth (reconnect
after a disconnect) invalidate `sites` and `graph`; the repeated
`connected` report and the disconnect invalidate nothing. -/
theorem c5_reconnect_invalidates_witness :
    (runStatusHandler false [true, true, false, true]).get ⟨0, by decide⟩
      = ["sites", "graph"] ∧
    (runStatusHandler false [true, true, false, true]).get ⟨1, by decide⟩
      = [] ∧
    (runStatusHandler false [true, true, false, true]).get ⟨2, by decide⟩
      = [] ∧
    (runStatusHandler false [true, true, false, true]).get ⟨3, by decide⟩
      = ["sites", "graph"] := by
  refine ⟨?_, ?_, ?_, ?_⟩
  · simpa using c5_reconnect_invalidates false [true, true, false, true] 0 (by decide)
  · simpa using c5_reconnect_invalidates false [true, true, false, true] 1 (by decide)
  · simpa using c5_reconnect_invalidates false [true, true, false, true] 2 (by decide)
  · simpa using c5_reconnect_invalidates false [true, true, false, true] 3 (by decide)

/-! ## Template detection (`ProvisionForm.tsx` and `SimpleDashboard`) — C2 -/

/-- A selected browser `File`: its basename `name` and, for folder
selections, the `webkitRelativePath` (absent or `""` otherwise). -/
structure JsFile where
  name : String
  webkitRelativePath : Option String
  deriving Repr, DecidableEq

/-- JS `file.webkitRelativePath || file.name` (`||` also falls through on
the empty string). -/
def pathOf (f : JsFile) : String :=
  match f.webkitRelativePath with
  | some r => if r = "" then f.name else r
  | none => f.name

/-- Browser invariant on selected files: `webkitRelativePath`, when
non-empty, is the path of the file inside the picked folder and so
contains the file's `name`. -/
def consistentFile (f : JsFile) : Bool :=
  match f.webkitRelativePath with
  | some r => r == "" || containsSub f.name.data r.data
  | none => true

/-- Function `detectFromFiles` of `ProvisionForm.tsx`: checks both the basename
list (`fileNames.includes`) and the path list (`paths.some(p =>
p.includes(...))`) per marker, in source order. -/
def detectFromFilesPF (files : List JsFile) : String :=
  let fileNames := files.map (fun f => jsBasename f.name)
  let paths := files.map pathOf
  if fileNames.contains "package.json"
      || paths.any (fun p => strContains p "package.json") then "node"
  else if fileNames.contains "requirements.txt"
      || paths.any (fun p => strContains p "requirements.txt") then "python"
  else if fileNames.contains "pyproject.toml"
      || paths.any (fun p => strContains p "pyproject.toml") then "python"
  else if fileNames.contains "manage.py"
      || paths.any (fun p => strContains p "manage.py") then "python"
  else if fileNames.contains "wp-config.php"
      || paths.any (fun p => strContains p "wp-config.php") then "wordpress"
  else if paths.any (fun p => strContains p "wp-content/") then "wordpress"
  else "static"

/-- Function `detectFromFiles` of `SimpleDashboard`: collects
`webkitRelativePath || name` per file and substring-checks the markers in
source order. -/
def detectFromFilesSD (files : List JsFile) : String :=
  let fileNames := files.map pathOf
  if fileNames.any (fun f => strContains f "package.json") then "node"
  else if fileNames.any (fun f => strContains f "requirements.txt") then "python"
  else if fileNames.any (fun f => strContains f "pyproject.toml") then "python"
  else if fileNames.any (fun f => strContains f "manage.py") then "python"
  else if fileNames.any (fun f => strContains f "wp-config.php") then "wordpress"
  else if fileNames.any (fun f => strContains f "wp-content/") then "wordpress"
  else "static"

/-- Some path in the list contains the marker as a substring. -/
def hasMarker (paths : List String) (m : String) : Bool :=
  paths.any (fun p => strContains p m)

/-- C2's cascade, stated from the claim's words: node when some path
contains `package.json`; otherwise python when some path contains
`requirements.txt`, `pyproject.toml`, or `manage.py`; otherwise wordpress
when some path contains `wp-config.php` or the `wp-content/` segment;
otherwise static. -/
def detectSpec (paths : List String) : String :=
  if hasMarker paths "package.json" then "node"
  else if hasMarker paths "requirements.txt" || hasMarker paths "pyproject.toml"
      || hasMarker paths "manage.py" then "python"
  else if hasMarker paths "wp-config.php" || hasMarker paths "wp-content/"
    then "wordpress"
  else "static"

theorem if_or_left {α : Sort _} (a b : Bool) (x y : α) :
    (if a || b then x else y) = if a then x else if b then x else y := by
  cases a <;> simp

theorem basename_marker_in_path {files : List JsFile} {m : String}
    (hc : ∀ f ∈ files, consistentFile f = true)
    (hmem : (files.map (fun f => jsBasename f.name)).contains m = true) :
    hasMarker (files.map pathOf) m = true := by
  obtain ⟨f, hf, hbase⟩ :
      ∃ f ∈ files, jsBasename f.name = m := by
    have := List.elem_iff.mp hmem
    obtain ⟨f, hf, hfm⟩ := List.mem_map.mp this
    exact ⟨f, hf, hfm⟩
  have hinfix : containsSub m.data f.name.data = true := by
    rw [containsSub_iff]
    exact (hbase ▸ jsBasename_suffix f.name).isInfix
  have hpath : containsSub m.data (pathOf f).data = true := by
    have hcf := hc f hf
    unfold consistentFile at hcf
    unfold pathOf
    cases hr : f.webkitRelativePath with
    | none => exact hinfix
    | some r =>
      rw [hr] at hcf
      by_cases hre : r = ""
      · simpa [hre] using hinfix
      · have hnr : containsSub f.name.data r.data = true := by
          have : (r == "") = false := by
            simpa using hre
          simpa [this] using hcf
        simpa [hre] using containsSub_trans hinfix hnr
  refine List.any_eq_true.mpr ⟨pathOf f, List.mem_map.mpr ⟨f, hf, rfl⟩, hpath⟩

/-- C2: both client-side template detectors classify by the detection
markers in the deterministic order node → python → wordpress → static,
agreeing with the cascade `detectSpec` over the files' paths
(`webkitRelativePath || name`); for the `ProvisionForm` variant this uses
the browser invariant that a non-empty `webkitRelativePath` contains the
file's basename. -/
theorem c2_detect_template_order (files : List JsFile)
    (hc : ∀ f ∈ files, consistentFile f = true) :
    detectFromFilesSD files = detectSpec (files.map pathOf) ∧
    detectFromFilesPF files = detectSpec (files.map pathOf) := by
  constructor
  · show detectFromFilesSD files = _
    unfold detectFromFilesSD detectSpec hasMarker
    rw [if_or_left, if_or_left, if_or_left]
  · have collapse : ∀ m : String,
        ((files.map (fun f => jsBasename f.name)).contains m
          || hasMarker (files.map pathOf) m)
        = hasMarker (files.map pathOf) m := by
      intro m
      cases hb : hasMarker (files.map pathOf) m with
      | true => simp
      | false =>
        cases hn : (files.map (fun f => jsBasename f.name)).contains m with
        | true => rw [basename_marker_in_path hc hn] at hb; cases hb
        | false => simp
    have c1 := collapse "package.json"
    have c2 := collapse "requirements.txt"
    have c3 := collapse "pyproject.toml"
    have c4 := collapse "manage.py"
    have c5 := collapse "wp-config.php"
    unfold hasMarker at c1 c2 c3 c4 c5
    show (if _ || _ then _ else _) = _
    rw [c1, c2, c3, c4, c5]
    unfold detectSpec hasMarker
    rw [if_or_left, if_or_left, if_or_left]

/-- C2 witness: a folder whose only marker is a `wp-content/` path segment
is classified wordpress by both detectors, matching the cascade; the
browser invariant holds for the sample files. -/
theorem c2_detect_template_order_witness :
    (∀ f ∈ [JsFile.mk "logo.png" (some "blog/wp-content/uploads/logo.png"),
            JsFile.mk "index.php" (some "blog/index.php")],
        consistentFile f = true) ∧
    detectFromFilesSD
        [JsFile.mk "logo.png" (some "blog/wp-content/uploads/logo.png"),
         JsFile.mk "index.php" (some "blog/index.php")] = "wordpress" ∧
    detectFromFilesPF
        [JsFile.mk "logo.png" (some "blog/wp-content/uploads/logo.png"),
         JsFile.mk "index.php" (some "blog/index.php")] = "wordpress" := by
  have hc : ∀ f ∈ [JsFile.mk "logo.png" (some "blog/wp-content/uploads/logo.png"),
            JsFile.mk "index.php" (some "blog/index.php")],
      consistentFile f = true := by decide
  have h := c2_detect_template_order
    [JsFile.mk "logo.png" (some "blog/wp-content/uploads/logo.png"),
     JsFile.mk "index.php" (some "blog/index.php")] hc
  refine ⟨hc, ?_, ?_⟩
  · rw [h.1]; decide
  · rw [h.2]; decide

/-! ## Site-name validation on provision submission — C3 -/

/-- Matcher for the tail of `^[a-z0-9][a-z0-9-]*[a-z0-9]$`: any number of
`[a-z0-9-]` followed by a final `[a-z0-9]`. -/
def siteNameTail : List Char → Bool
  | [] => false
  | [c] => isAlnumLower c
  | c :: rest => (isAlnumLower c || c = '-') && siteNameTail rest

/-- The validation regex `^[a-z0-9][a-z0-9-]*[a-z0-9]$` shared by all three
provision submit handlers. -/
def matchesSiteName (s : String) : Bool :=
  match s.data with
  | [] => false
  | c :: rest => isAlnumLower c && siteNameTail rest

/-- The inner regex `^[a-z0-9]+$` of the source-deploy `ProvisionForm`. -/
def alnumLowerOnly (s : String) : Bool :=
  !s.data.isEmpty && s.data.all isAlnumLower

/-- Guard of `handleSubmit` in the simple `ProvisionForm` variant: `true` iff
validation passes and the provision request is sent. -/
def provisionFormSimpleSends (name : String) : Bool :=
  matchesSiteName name

/-- Guard of `handleSubmit` in the source-deploy `ProvisionForm` variant: rejection
only fires inside `if (!name.match(regex) && name.length >= 2)`, so the
request is sent whenever that guard or the inner `^[a-z0-9]+$` check lets
it through. -/
def provisionFormSourceSends (name : String) : Bool :=
  if !matchesSiteName name && decide (name.length ≥ 2) then
    if !alnumLowerOnly name then false else true
  else true

/-- Guard of `handleProvision` in `SimpleDashboard`: rejection only fires inside
`if (!provisionName.match(regex) && provisionName.length > 1)`. -/
def dashboardProvisionSends (name : String) : Bool :=
  if !matchesSiteName name && decide (name.length > 1) then false else true

/-- C3: the one-character name "a" fails the site-name rule (length ≥ 2),
and the simple `ProvisionForm` rejects it; but both the source-deploy
`ProvisionForm` and `SimpleDashboard` submit handlers let it through to
the server (their rejection branch demands `length ≥ 2` before firing),
contradicting the claim that validation rejects it before any provision
request is sent. `SimpleDashboard` even submits the empty name. -/
theorem c3_name_validation_gap :
    matchesSiteName "a" = false ∧
    provisionFormSimpleSends "a" = false ∧
    provisionFormSourceSends "a" = true ∧
    dashboardProvisionSends "a" = true ∧
    dashboardProvisionSends "" = true := by
  refine ⟨?_, ?_, ?_, ?_, ?_⟩ <;> decide

/-! ## Backup run ingest payload (`scripts/backups/emit_result.sh`) — C7 -/

/-- JSON values occurring in the emitted payload: `null`, a raw numeric
literal (interpolated unquoted), or a string. -/
inductive JsonVal where
  | null
  | num (raw : String)
  | str (s : String)
  deriving Repr, DecidableEq

/-- Shape check for the `date -Iseconds` output the backup scripts pass as
timestamps: `YYYY-MM-DDThh:mm:ss±hh:mm`, an RFC-3339 date-time. -/
def isRfc3339 (s : String) : Bool :=
  match s.data with
  | [y1, y2, y3, y4, '-', mo1, mo2, '-', d1, d2, 'T',
     h1, h2, ':', mi1, mi2, ':', s1, s2, z, o1, o2, ':', p1, p2] =>
      [y1, y2, y3, y4, mo1, mo2, d1, d2, h1, h2,
       mi1, mi2, s1, s2, o1, o2, p1, p2].all Char.isDigit
        && (z = '+' || z = '-')
  | _ => false

/-- Payload `JSON_PAYLOAD` of `emit_result.sh`: the nine fields in script order.
Arguments 6–9 carry the sentinel `"null"` when the caller omits them, and
the script then emits JSON `null`; `$ERROR` goes through `jq -Rs`, which
produces the JSON string of the message (modelled as the string value). -/
def emitResultPayload (site jobType status startedAt endedAt
    bytesWritten backupId repo error : String) : List (String × JsonVal) :=
  [("site", .str site),
   ("job_type", .str jobType),
   ("status", .str status),
   ("started_at", .str startedAt),
   ("ended_at", .str endedAt),
   ("bytes_written", if bytesWritten = "null" then .null else .num bytesWritten),
   ("backup_id", if backupId = "null" then .null else .str backupId),
   ("repo", if repo = "null" then .null else .str repo),
   ("error", if error = "null" then .null else .str error)]

/-- C7: every emitted backup run record has exactly the fields `site`,
`job_type`, `status`, `started_at`, `ended_at`, `bytes_written`,
`backup_id`, `repo`, `error`; the timestamps are the callers' RFC-3339
`date -Iseconds` strings; and each optional field is JSON `null` when the
caller omits it (sentinel `"null"`). -/
theorem c7_backup_run_wire_shape
    (site jobType status startedAt endedAt
      bytesWritten backupId repo error : String)
    (hs : isRfc3339 startedAt = true) (he : isRfc3339 endedAt = true) :
    (emitResultPayload site jobType status startedAt endedAt
        bytesWritten backupId repo error).map Prod.fst
      = ["site", "job_type", "status", "started_at", "ended_at",
         "bytes_written", "backup_id", "repo", "error"] ∧
    ((emitResultPayload site jobType status startedAt endedAt
        bytesWritten backupId repo error).lookup "started_at"
      = some (.str startedAt) ∧ isRfc3339 startedAt = true) ∧
    ((emitResultPayload site jobType status startedAt endedAt
        bytesWritten backupId repo error).lookup "ended_at"
      = some (.str endedAt) ∧ isRfc3339 endedAt = true) ∧
    (bytesWritten = "null" →
      (emitResultPayload site jobType status startedAt endedAt
        bytesWritten backupId repo error).lookup "bytes_written" = some .null) ∧
    (backupId = "null" →
      (emitResultPayload site jobType status startedAt endedAt
        bytesWritten backupId repo error).lookup "backup_id" = some .null) ∧
    (repo = "null" →
      (emitResultPayload site jobType status startedAt endedAt
        bytesWritten backupId repo error).lookup "repo" = some .null) ∧
    (error = "null" →
      (emitResultPayload site jobType status startedAt endedAt
        bytesWritten backupId repo error).lookup "error" = some .null) := by
  refine ⟨rfl, ⟨?_, hs⟩, ⟨?_, he⟩, fun h => ?_, fun h => ?_, fun h => ?_,
    fun h => ?_⟩ <;>
    simp [emitResultPayload, List.lookup, *]

/-- C7 witness: a concrete `backup_db.sh`-style invocation (omitted
`backup_id` and `error`) yields the nine fields with `null` in the omitted
slots and RFC-3339 timestamps. -/
theorem c7_backup_run_wire_shape_witness :
    isRfc3339 "2026-02-03T04:05:06+00:00" = true ∧
    (emitResultPayload "system" "db" "ok" "2026-02-03T04:05:06+00:00"
        "2026-02-03T04:16:07+00:00" "12345" "null" "/mnt/nas/restic" "null").map
        Prod.fst
      = ["site", "job_type", "status", "started_at", "ended_at",
         "bytes_written", "backup_id", "repo", "error"] ∧
    (emitResultPayload "system" "db" "ok" "2026-02-03T04:05:06+00:00"
        "2026-02-03T04:16:07+00:00" "12345" "null" "/mnt/nas/restic"
        "null").lookup "backup_id" = some .null := by
  have h := c7_backup_run_wire_shape "system" "db" "ok"
    "2026-02-03T04:05:06+00:00" "2026-02-03T04:16:07+00:00"
    "12345" "null" "/mnt/nas/restic" "null" (by decide) (by decide)
  exact ⟨h.2.1.2, h.1, h.2.2.2.2.1 rfl⟩

/-! ## Site filter bar (`SiteFilterBar.tsx`) — C8 -/

/-- Per-site backup summary row: `{site, overall_status, ...}`. -/
structure SiteBackupStatus where
  site : String
  overall_status : String
  deriving Repr, DecidableEq

/-- Record `BackupSummaryResponse`: `{sites: SiteBackupStatus[]}`. -/
structure BackupSummaryResponse where
  sites : List SiteBackupStatus
  deriving Repr, DecidableEq

/-- Record `HealthResponse`: `{monitors: Record<string, MonitorStatus>}`,
modelled as an association list. -/
structure HealthResponse where
  monitors : List (String × MonitorStatus)
  deriving Repr, DecidableEq

/-- Lookup `healthData?.monitors?.[site.name] ||
healthData?.monitors?.[site.name.toLowerCase()]`. -/
def monitorFor (health : Option HealthResponse) (name : String) :
    Option MonitorStatus :=
  match health with
  | none => none
  | some h => (h.monitors.lookup name).or (h.monitors.lookup name.toLower)

/-- The `stopped` predicate of both functions:
`site.status === 'stopped' || site.status === 'degraded'`. -/
def siteStopped (s : Site) : Bool :=
  s.status == "stopped" || s.status == "degraded"

/-- The `issues` predicate of both functions: a monitor exists and either
some heartbeat is down or uptime is below 99 (the `heartbeats?.` /
`uptime !== undefined` guards are identities under the declared
`MonitorStatus` interface). -/
def siteHasIssue (health : Option HealthResponse) (s : Site) : Bool :=
  match monitorFor health s.name with
  | none => false
  | some m =>
    m.heartbeats.any (fun h => h.status == 0) || decide (m.uptime < 99)

/-- Lookup `backupData?.sites?.find(b => b.site === site.name || b.site ===
site.name.toLowerCase())`. -/
def backupFor (backup : Option BackupSummaryResponse) (name : String) :
    Option SiteBackupStatus :=
  match backup with
  | none => none
  | some b => b.sites.find? (fun r => r.site == name || r.site == name.toLower)

/-- The `backup_warnings` predicate of both functions: a summary row
exists with `overall_status` `warn` or `fail`. -/
def siteBackupWarn (backup : Option BackupSummaryResponse) (s : Site) : Bool :=
  match backupFor backup s.name with
  | none => false
  | some r => r.overall_status == "warn" || r.overall_status == "fail"

/-- The four counters `computeFilterCounts` returns. -/
structure FilterCounts where
  all : Nat
  issues : Nat
  stopped : Nat
  backup_warnings : Nat
  deriving Repr, DecidableEq

/-- The filter keys (`SiteFilter`). -/
inductive SiteFilter where
  | all | issues | stopped | backup_warnings
  deriving Repr, DecidableEq

/-- Function `computeFilterCounts`: zero counts without a site list; otherwise one
pass over the sites bumping the three predicate counters, with `all` set
to the list length. -/
def computeFilterCounts (sites : Option (List Site))
    (health : Option HealthResponse) (backup : Option BackupSummaryResponse) :
    FilterCounts :=
  match sites with
  | none => ⟨0, 0, 0, 0⟩
  | some ss =>
    let acc := ss.foldl
      (fun (a : FilterCounts) site =>
        { a with
          stopped := a.stopped + (if siteStopped site then 1 else 0)
          issues := a.issues + (if siteHasIssue health site then 1 else 0)
          backup_warnings :=
            a.backup_warnings + (if siteBackupWarn backup site then 1 else 0) })
      ⟨0, 0, 0, 0⟩
    { acc with all := ss.length }

/-- Function `filterSites`: pass the list through for `all` (or no list), else
filter by the matching predicate. -/
def filterSites (sites : Option (List Site)) (filter : SiteFilter)
    (health : Option HealthResponse) (backup : Option BackupSummaryResponse) :
    Option (List Site) :=
  match sites, filter with
  | none, _ => none
  | some ss, .all => some ss
  | some ss, .stopped => some (ss.filter siteStopped)
  | some ss, .issues => some (ss.filter (siteHasIssue health))
  | some ss, .backup_warnings => some (ss.filter (siteBackupWarn backup))

theorem computeFilterCounts_foldl (ss : List Site)
    (health : Option HealthResponse) (backup : Option BackupSummaryResponse)
    (a : FilterCounts) :
    ss.foldl
      (fun (a : FilterCounts) site =>
        { a with
          stopped := a.stopped + (if siteStopped site then 1 else 0)
          issues := a.issues + (if siteHasIssue health site then 1 else 0)
          backup_warnings :=
            a.backup_warnings + (if siteBackupWarn backup site then 1 else 0) })
      a
    = { all := a.all
        issues := a.issues + ss.countP (siteHasIssue health)
        stopped := a.stopped + ss.countP siteStopped
        backup_warnings :=
          a.backup_warnings + ss.countP (siteBackupWarn backup) } := by
  induction ss generalizing a with
  | nil => simp [List.countP_nil]
  | cons x t ih =>
    rw [List.foldl_cons, ih]
    simp only [List.countP_cons, FilterCounts.mk.injEq]
    refine ⟨trivial, by ring, by ring, by ring⟩

/-- C8: the filter-bar counts agree with the filtered lists — for every
site list and any optional health and backup data, each field of
`computeFilterCounts` equals the length of `filterSites` under the
corresponding filter on the same inputs. -/
theorem c8_filter_counts_agree (ss : List Site)
    (health : Option HealthResponse) (backup : Option BackupSummaryResponse) :
    (computeFilterCounts (some ss) health backup).all
      = ((filterSites (some ss) .all health backup).getD []).length ∧
    (computeFilterCounts (some ss) health backup).stopped
      = ((filterSites (some ss) .stopped health backup).getD []).length ∧
    (computeFilterCounts (some ss) health backup).issues
      = ((filterSites (some ss) .issues health backup).getD []).length ∧
    (computeFilterCounts (some ss) health backup).backup_warnings
      = ((filterSites (some ss) .backup_warnings health backup).getD []).length := by
  have hc : computeFilterCounts (some ss) health backup
      = { all := ss.length
          issues := ss.countP (siteHasIssue health)
          stopped := ss.countP siteStopped
          backup_warnings := ss.countP (siteBackupWarn backup) } := by
    show ({ (ss.foldl _ ⟨0, 0, 0, 0⟩ : FilterCounts) with all := ss.length }
        : FilterCounts) = _
    rw [computeFilterCounts_foldl]
    simp
  rw [hc]
  refine ⟨by simp [filterSites], ?_, ?_, ?_⟩ <;>
    simp [filterSites, List.countP_eq_length_filter]

end SiteFlow
